import Mathlib

/-!
Shallow embedding of the adaptive multi-endpoint request client of
src/services/musicApi.ts (the module-keyed snapshot: fetchWithFailover at
lines 402-468, promiseAny at 375-395, refreshModuleApiNode at 295-336,
loadModuleBestBases at 254-267, saveModuleBestBase at 273-276,
resetModuleApiNode at 279-282, API_BASES at 220-238).

Network I/O is modelled by an oracle mapping (base, path) to the observed
outcome of that request during the call.  The settlement order of the
promises of a concurrent race is a parameter (sched), since the event loop
may deliver completions in any order; theorems that need it assume sched
permutes each batch.  The per-call query suffix appended to every URL
(timestamp and realIP, line 406) is common to all endpoints of one call and
is abstracted away; requests are logged as (base, path) pairs in issue order.
-/

namespace MusicApi

/-- The six request categories (type ApiModule, musicApi.ts line 241). -/
inductive ApiModule where
  | recommend
  | playlist
  | search
  | artist
  | lyrics
  | comments
  deriving DecidableEq, Repr, Fintype

/-- The localStorage key of a module: the string vinyl_api_ followed by the
module name (lines 260, 275, 281, 298). -/
def moduleKey : ApiModule → String
  | .recommend => "vinyl_api_recommend"
  | .playlist => "vinyl_api_playlist"
  | .search => "vinyl_api_search"
  | .artist => "vinyl_api_artist"
  | .lyrics => "vinyl_api_lyrics"
  | .comments => "vinyl_api_comments"

/-- The endpoint pool (API_BASES, lines 220-238; the commented-out backup
entries are not members of the array). -/
def API_BASES : List String :=
  [ "https://ncm.zhenxin.me",
    "https://zm.i9mr.com",
    "https://zm.wwoyun.cn",
    "https://music.cyrilstudio.top",
    "https://music-api.heheda.top",
    "https://ncmapi.redd.one",
    "https://api.music.areschang.top",
    "https://ncm.cloud.zlib.cn",
    "https://api.lo-li.cw" ]

/-- Parsed JSON body of an HTTP response: the optional top-level numeric code
field that the client checks, and an opaque abstraction of everything else. -/
structure JsonBody where
  code : Option Int
  payload : Nat
  deriving DecidableEq, Repr

/-- The observed outcome of one GET: fail covers a rejected fetch (network
error, timeout abort, body-parse failure); resp carries the HTTP status and
the parsed JSON body. -/
inductive FetchResult where
  | fail
  | resp (status : Nat) (body : JsonBody)
  deriving DecidableEq, Repr

/-- A network oracle: what each (base, path) request returns during one call. -/
abbrev Net := String → String → FetchResult

/-- The error classes one attempt can raise (the throw sites at lines 416-419,
444-447 and 314-316): a rejected fetch, a non-2xx HTTP status, or a logical
API code embedded in an HTTP 200 body. -/
inductive AttemptError where
  | thrown
  | httpStatus (status : Nat)
  | apiCode (code : Int)
  deriving DecidableEq, Repr

/-- The ok field of a fetch Response: status in the range 200 to 299. -/
def resOk (status : Nat) : Bool := 200 ≤ status && status ≤ 299

/-- JS truthiness of the numeric code field: the guard data.code is false
exactly when the number is 0. -/
def jsTruthy (c : Int) : Bool := c != 0

/-- How every path of the client classifies one attempt, translated from the
identical checks at lines 416-419 (fast path), 444-447 (race path) and
314-316 (calibration probe): throw on a rejected fetch; throw when res.ok is
false; after parsing, throw when data.code is truthy and not equal to 200;
otherwise the body is a success. -/
def classify : FetchResult → Except AttemptError JsonBody
  | .fail => Except.error AttemptError.thrown
  | .resp status body =>
    if !resOk status then Except.error (AttemptError.httpStatus status)
    else
      match body.code with
      | some c =>
        if jsTruthy c && c != 200 then Except.error (AttemptError.apiCode c)
        else Except.ok body
      | none => Except.ok body

/-- The durable key/value store (localStorage), together with flags saying
which operations throw for which keys (browser storage may throw on access
or on quota). -/
structure Storage where
  items : String → Option String
  getThrows : String → Bool
  setThrows : String → Bool
  removeThrows : String → Bool

/-- localStorage.getItem, fallible. -/
def storeGet (s : Storage) (k : String) : Except Unit (Option String) :=
  if s.getThrows k then Except.error () else Except.ok (s.items k)

/-- localStorage.setItem, fallible. -/
def storeSet (s : Storage) (k v : String) : Except Unit Storage :=
  if s.setThrows k then Except.error ()
  else Except.ok { s with items := fun k2 => if k2 = k then some v else s.items k2 }

/-- localStorage.removeItem, fallible. -/
def storeRemove (s : Storage) (k : String) : Except Unit Storage :=
  if s.removeThrows k then Except.error ()
  else Except.ok { s with items := fun k2 => if k2 = k then none else s.items k2 }

/-- The client state: the in-memory moduleBestBases record (line 270) and the
durable store. -/
structure ClientState where
  mem : ApiModule → Option String
  store : Storage

/-- loadModuleBestBases (lines 254-267): for each module, read the persisted
key inside a try/catch; a throwing read yields null, and a stored value is
kept only when it is a member of API_BASES.  (The JS truthiness test on the
stored value also rejects the empty string, which the membership test
rejects anyway, so the two translations agree.) -/
def loadModuleBestBases (s : Storage) (mod : ApiModule) : Option String :=
  match storeGet s (moduleKey mod) with
  | Except.error _ => none
  | Except.ok none => none
  | Except.ok (some saved) => if API_BASES.contains saved then some saved else none

/-- saveModuleBestBase (lines 273-276): update the in-memory record first,
then try to persist; a throwing setItem is swallowed by the empty catch. -/
def saveModuleBestBase (st : ClientState) (mod : ApiModule) (base : String) : ClientState :=
  let mem2 : ApiModule → Option String := fun m => if m = mod then some base else st.mem m
  match storeSet st.store (moduleKey mod) base with
  | Except.ok s2 => { mem := mem2, store := s2 }
  | Except.error _ => { mem := mem2, store := st.store }

/-- resetModuleApiNode (lines 279-282): null the in-memory entry first, then
try to remove the persisted key; a throwing removeItem is swallowed. -/
def resetModuleApiNode (st : ClientState) (mod : ApiModule) : ClientState :=
  let mem2 : ApiModule → Option String := fun m => if m = mod then none else st.mem m
  match storeRemove st.store (moduleKey mod) with
  | Except.ok s2 => { mem := mem2, store := s2 }
  | Except.error _ => { mem := mem2, store := st.store }

/-- MODULE_TEST_PATHS (lines 285-292): the fixed probe path per module used by
refreshModuleApiNode. -/
def MODULE_TEST_PATHS : ApiModule → String
  | .recommend => "/personalized?limit=1"
  | .playlist => "/playlist/track/all?id=833444858&limit=1"
  | .search => "/cloudsearch?keywords=test&type=1&limit=1"
  | .artist => "/artist/detail?id=12138269"
  | .lyrics => "/lyric?id=1974443814"
  | .comments => "/comment/music?id=1974443814&limit=1"

/-- The thrown Error object, as far as callers can inspect it: its message and
the list of sub-errors attached to it.  None of the Error objects this
client constructs carries sub-errors. -/
structure JsError where
  message : String
  errors : List AttemptError
  deriving DecidableEq, Repr

/-- The race-path batch size (line 432). -/
def BATCH_SIZE : Nat := 5

/-- The batches of the race path: iteration i of the loop at line 436 slices
allCandidates from i to i + BATCH_SIZE, stepping by BATCH_SIZE, while the
index is below the length; so chunk i takes BATCH_SIZE elements after
dropping i * BATCH_SIZE. -/
def chunksOf (B : Nat) (l : List String) : List (List String) :=
  (List.range ((l.length + B - 1) / B)).map fun i => (l.drop (i * B)).take B

/-- Settlement of one race batch in completion order, translated from lines
440-457: every promise of the batch classifies its own response; a promise
that succeeds first runs the guarded cache write (lines 450-454: only when
the module entry is currently null does it call saveModuleBestBase) and then
settles with its body.  promiseAny (lines 375-395) resolves with the first
success while the remaining promises still run to natural completion, so the
fold keeps processing the rest of the order for their side effects and keeps
the first successful body as its value.  Returns the value promiseAny
resolves with (none when every promise rejected) and the final state. -/
def settleBatch (net : Net) (path : String) (mod : ApiModule) :
    List String → ClientState → Option JsonBody × ClientState
  | [], st => (none, st)
  | base :: rest, st =>
    match classify (net base path) with
    | Except.ok body =>
      let st2 := if (st.mem mod).isNone then saveModuleBestBase st mod base else st
      (some body, (settleBatch net path mod rest st2).2)
    | Except.error _ => settleBatch net path mod rest st

/-- The generic failure thrown at line 467 when every batch fails: a bare
Error carrying only a message, no per-endpoint sub-errors. -/
def noServerError : JsError :=
  { message := "无法连接到任何音乐服务器，请检查网络连接。", errors := [] }

/-- The aggregate rejection of promiseAny when every promise rejected
(line 390): again a bare Error with no attached sub-errors; the local errors
array of promiseAny is filled (line 388) but never exposed. -/
def allRejectedError : JsError :=
  { message := "All promises rejected", errors := [] }

/-- The race path of fetchWithFailover (lines 430-467): batches are attempted
strictly in order; a batch that yields a winner returns the winner value at
once; a batch whose promiseAny rejected only feeds the lastError local
(used for logging) and the loop continues; when the loop exhausts every
batch, the generic error of line 467 is thrown.  Also returns the network
requests issued, in issue order. -/
def racePath (net : Net) (path : String) (mod : ApiModule)
    (sched : List String → List String) :
    List (List String) → ClientState →
      Except JsError JsonBody × ClientState × List (String × String)
  | [], st => (Except.error noServerError, st, [])
  | batch :: rest, st =>
    let reqs := batch.map fun b => (b, path)
    match settleBatch net path mod (sched batch) st with
    | (some body, st2) => (Except.ok body, st2, reqs)
    | (none, st2) =>
      let r := racePath net path mod sched rest st2
      (r.1, r.2.1, reqs ++ r.2.2)

/-- The full outcome of one fetchWithFailover call: the value returned or the
error thrown, the final client state, and the requests issued in order. -/
structure CallResult where
  result : Except JsError JsonBody
  state : ClientState
  requests : List (String × String)

/-- fetchWithFailover (lines 402-468).  Fast path (lines 410-428): when the
module has a cached base, issue one request against it; on success return
its body at once; on any failure only the in-memory entry is nulled (line
426 assigns null to moduleBestBases at the module, without touching
localStorage) and control falls through to the race path over a fresh copy
of the whole pool in batches of BATCH_SIZE (lines 430-467). -/
def fetchWithFailover (net : Net) (path : String) (mod : ApiModule)
    (sched : List String → List String) (st : ClientState) : CallResult :=
  match st.mem mod with
  | some cachedBase =>
    match classify (net cachedBase path) with
    | Except.ok body =>
      { result := Except.ok body, state := st, requests := [(cachedBase, path)] }
    | Except.error _ =>
      let st2 : ClientState := { st with mem := fun m => if m = mod then none else st.mem m }
      let r := racePath net path mod sched (chunksOf BATCH_SIZE API_BASES) st2
      { result := r.1, state := r.2.1, requests := (cachedBase, path) :: r.2.2 }
  | none =>
    let r := racePath net path mod sched (chunksOf BATCH_SIZE API_BASES) st
    { result := r.1, state := r.2.1, requests := r.2.2 }

/-- promiseAny over the probe promises of refreshModuleApiNode (lines
305-327): each probe promise classifies its own response and settles with
its own base on success; the first success in completion order is the
winner; none when every probe rejected. -/
def probeRaceWinner (net : Net) (path : String) : List String → Option String
  | [] => none
  | base :: rest =>
    if (classify (net base path)).isOk then some base else probeRaceWinner net path rest

/-- refreshModuleApiNode (lines 295-336): first unconditionally clear the
module entry, in memory and in the store (lines 297-298, which inline
exactly the body of resetModuleApiNode); then race every pool endpoint
concurrently in one single batch on the module probe path; on a winner,
saveModuleBestBase it (line 328) and return it; when every probe fails,
return null (line 334).  Returns (result, final state, requests issued). -/
def refreshModuleApiNode (net : Net) (sched : List String → List String)
    (mod : ApiModule) (st : ClientState) :
    Option String × ClientState × List (String × String) :=
  let st1 := resetModuleApiNode st mod
  let testPath := MODULE_TEST_PATHS mod
  let reqs := API_BASES.map fun b => (b, testPath)
  match probeRaceWinner net testPath (sched API_BASES) with
  | some w => (some w, saveModuleBestBase st1 mod w, reqs)
  | none => (none, st1, reqs)

/-- A network where every request fails (the mirror pool fully down). -/
def netAllFail : Net := fun _ _ => FetchResult.fail

/-- A store that never throws and holds nothing. -/
def emptyStorage : Storage :=
  { items := fun _ => none
    getThrows := fun _ => false
    setThrows := fun _ => false
    removeThrows := fun _ => false }

/-- A client state with no cached module entries over an empty store. -/
def emptyState : ClientState := { mem := fun _ => none, store := emptyStorage }

/-- A client state whose playlist module has a cached endpoint (the first pool
member) with nothing persisted. -/
def stCachedEmptyStore : ClientState :=
  { mem := fun m => if m = ApiModule.playlist then some ("https://ncm.zhenxin.me") else none
    store := emptyStorage }

/-- A client state whose playlist module has a cached endpoint that is also
persisted under its key, over a store that never throws. -/
def stCachedPersisted : ClientState :=
  { mem := fun m => if m = ApiModule.playlist then some ("https://ncm.zhenxin.me") else none
    store := { emptyStorage with
      items := fun k => if k = ("vinyl_api_playlist") then some ("https://ncm.zhenxin.me") else none } }

/-- A network where exactly the first pool endpoint answers success. -/
def netFirstOk : Net := fun b _ =>
  if b = ("https://ncm.zhenxin.me") then FetchResult.resp 200 { code := none, payload := 5 }
  else FetchResult.fail

/-- A network where every endpoint answers HTTP 200 with a plain body. -/
def netAllOk : Net := fun _ _ => FetchResult.resp 200 { code := none, payload := 42 }

/-- A network where every endpoint answers HTTP 200 with a body whose logical
code field is 0. -/
def netCodeZero : Net := fun _ _ => FetchResult.resp 200 { code := some 0, payload := 7 }

/-- A store where every operation throws on every key. -/
def throwingStorage : Storage :=
  { items := fun _ => none
    getThrows := fun _ => true
    setThrows := fun _ => true
    removeThrows := fun _ => true }

/-- A client state over a store where every operation throws. -/
def throwingState : ClientState := { mem := fun _ => none, store := throwingStorage }

/-- The race batches of the actual pool partition it: their concatenation is
exactly API_BASES. -/
theorem chunks_flatten : (chunksOf BATCH_SIZE API_BASES).flatten = API_BASES := rfl

/-- The actual pool has no duplicate endpoints. -/
theorem apiBases_nodup : API_BASES.Nodup := by decide

/-- Writing a module best base always sets that module entry in memory. -/
theorem saveModuleBestBase_mem_self (st : ClientState) (mod : ApiModule) (base : String) :
    (saveModuleBestBase st mod base).mem mod = some base := by
  unfold saveModuleBestBase
  cases storeSet st.store (moduleKey mod) base <;> simp

/-- Writing a module best base never changes another module entry in memory. -/
theorem saveModuleBestBase_mem_frame (st : ClientState) (mod : ApiModule) (base : String)
    (m : ApiModule) (hm : m ≠ mod) :
    (saveModuleBestBase st mod base).mem m = st.mem m := by
  unfold saveModuleBestBase
  cases storeSet st.store (moduleKey mod) base <;> simp [hm]

/-- Writing a module best base never changes the stored value of another key. -/
theorem saveModuleBestBase_store_frame (st : ClientState) (mod : ApiModule) (base : String)
    (k : String) (hk : k ≠ moduleKey mod) :
    (saveModuleBestBase st mod base).store.items k = st.store.items k := by
  unfold saveModuleBestBase storeSet
  by_cases h : st.store.setThrows (moduleKey mod) <;> simp [h, hk]

/-- Resetting a module always nulls that module entry in memory. -/
theorem resetModuleApiNode_mem_self (st : ClientState) (mod : ApiModule) :
    (resetModuleApiNode st mod).mem mod = none := by
  unfold resetModuleApiNode
  cases storeRemove st.store (moduleKey mod) <;> simp

/-- Resetting a module never changes another module entry in memory. -/
theorem resetModuleApiNode_mem_frame (st : ClientState) (mod : ApiModule)
    (m : ApiModule) (hm : m ≠ mod) :
    (resetModuleApiNode st mod).mem m = st.mem m := by
  unfold resetModuleApiNode
  cases storeRemove st.store (moduleKey mod) <;> simp [hm]

/-- Resetting a module never changes the stored value of another key. -/
theorem resetModuleApiNode_store_frame (st : ClientState) (mod : ApiModule)
    (k : String) (hk : k ≠ moduleKey mod) :
    (resetModuleApiNode st mod).store.items k = st.store.items k := by
  unfold resetModuleApiNode storeRemove
  by_cases h : st.store.removeThrows (moduleKey mod) <;> simp [h, hk]

/-- Resetting a module leaves the throw behaviour of the store untouched. -/
theorem resetModuleApiNode_store_flags (st : ClientState) (mod : ApiModule) :
    (resetModuleApiNode st mod).store.setThrows = st.store.setThrows ∧
    (resetModuleApiNode st mod).store.removeThrows = st.store.removeThrows ∧
    (resetModuleApiNode st mod).store.getThrows = st.store.getThrows := by
  unfold resetModuleApiNode storeRemove
  by_cases h : st.store.removeThrows (moduleKey mod) <;> simp [h]

/-- When the remove operation of the store does not throw for the module key,
resetting removes the persisted value. -/
theorem resetModuleApiNode_store_self (st : ClientState) (mod : ApiModule)
    (h : st.store.removeThrows (moduleKey mod) = false) :
    (resetModuleApiNode st mod).store.items (moduleKey mod) = none := by
  unfold resetModuleApiNode storeRemove
  simp [h]

/-- Distinct modules have distinct persisted keys. -/
theorem moduleKey_injective : ∀ (a b : ApiModule), a ≠ b → moduleKey a ≠ moduleKey b := by
  decide

/-- When every endpoint fails, a batch settlement rejects and leaves the state
untouched. -/
theorem settleBatch_all_fail (net : Net) (path : String) (mod : ApiModule)
    (order : List String) (st : ClientState)
    (h : ∀ b, (classify (net b path)).isOk = false) :
    settleBatch net path mod order st = (none, st) := by
  induction order with
  | nil => rfl
  | cons b rest ih =>
    have hb := h b
    unfold settleBatch
    match hc : classify (net b path) with
    | Except.ok body => rw [hc] at hb; simp [Except.isOk, Except.toBool] at hb
    | Except.error e => rw [ih]

/-- A batch settlement that rejects leaves the state untouched and had no
successful endpoint in its order. -/
theorem settleBatch_none (net : Net) (path : String) (mod : ApiModule)
    (order : List String) (st : ClientState)
    (h : (settleBatch net path mod order st).1 = none) :
    settleBatch net path mod order st = (none, st) ∧
      ∀ b ∈ order, (classify (net b path)).isOk = false := by
  induction order with
  | nil => exact ⟨rfl, by simp⟩
  | cons b rest ih =>
    unfold settleBatch at h ⊢
    match hc : classify (net b path) with
    | Except.ok body => rw [hc] at h; simp at h
    | Except.error e =>
      rw [hc] at h
      have := ih h
      refine ⟨this.1, ?_⟩
      intro x hx
      rcases List.mem_cons.mp hx with hx | hx
      · subst hx; rw [hc]; rfl
      · exact this.2 x hx

/-- Once the module entry is set, no later settlement of the same batch
overwrites it (the guarded write only fires on a null entry). -/
theorem settleBatch_mem_stable (net : Net) (path : String) (mod : ApiModule)
    (order : List String) (st : ClientState) (w : String) (h : st.mem mod = some w) :
    (settleBatch net path mod order st).2.mem mod = some w := by
  induction order generalizing st with
  | nil => exact h
  | cons b rest ih =>
    unfold settleBatch
    match hc : classify (net b path) with
    | Except.ok body => simp [h, ih st h]
    | Except.error e => exact ih st h

/-- A batch settlement that resolves did so with the body of some endpoint of
its order whose attempt classified as success, and that endpoint is the one
recorded in the module entry afterwards. -/
theorem settleBatch_some (net : Net) (path : String) (mod : ApiModule)
    (order : List String) (st : ClientState) (body : JsonBody) (st2 : ClientState)
    (hmem : st.mem mod = none)
    (h : settleBatch net path mod order st = (some body, st2)) :
    ∃ w, w ∈ order ∧ classify (net w path) = Except.ok body ∧ st2.mem mod = some w := by
  induction order generalizing st with
  | nil => simp [settleBatch] at h
  | cons b rest ih =>
    unfold settleBatch at h
    match hc : classify (net b path) with
    | Except.ok body0 =>
      rw [hc] at h
      simp [hmem] at h
      refine ⟨b, List.mem_cons_self b rest, ?_, ?_⟩
      · rw [hc, h.1]
      · rw [← h.2]
        exact settleBatch_mem_stable net path mod rest _
          b (saveModuleBestBase_mem_self st mod b)
    | Except.error e =>
      rw [hc] at h
      obtain ⟨w, hw, hcw, hmw⟩ := ih st hmem h
      exact ⟨w, List.mem_cons_of_mem b hw, hcw, hmw⟩

/-- When every endpoint fails, the race path walks through every batch, throws
the generic error, leaves the state untouched, and its request log is the
concatenation of all batches. -/
theorem racePath_all_fail (net : Net) (path : String) (mod : ApiModule)
    (sched : List String → List String) (batches : List (List String)) (st : ClientState)
    (h : ∀ b, (classify (net b path)).isOk = false) :
    racePath net path mod sched batches st =
      (Except.error noServerError, st, batches.flatten.map fun b => (b, path)) := by
  induction batches with
  | nil => rfl
  | cons batch rest ih =>
    unfold racePath
    rw [settleBatch_all_fail net path mod (sched batch) st h]
    simp [ih]

/-- A race path call that resolves did so at the first batch whose settlement
resolved: every earlier batch settled to a rejection without touching the
state, the winning batch produced the returned body and final state, and
the request log stops at the winning batch. -/
theorem racePath_ok (net : Net) (path : String) (mod : ApiModule)
    (sched : List String → List String) (batches : List (List String)) (st : ClientState)
    (body : JsonBody) (st2 : ClientState) (reqs : List (String × String))
    (h : racePath net path mod sched batches st = (Except.ok body, st2, reqs)) :
    ∃ pre win post, batches = pre ++ win :: post ∧
      (∀ c ∈ pre, settleBatch net path mod (sched c) st = (none, st)) ∧
      settleBatch net path mod (sched win) st = (some body, st2) ∧
      reqs = (pre.flatten ++ win).map fun b => (b, path) := by
  induction batches generalizing st st2 reqs with
  | nil => simp [racePath, noServerError] at h
  | cons batch rest ih =>
    unfold racePath at h
    match hs : settleBatch net path mod (sched batch) st with
    | (some b0, stx) =>
      rw [hs] at h
      simp at h
      obtain ⟨h1, h2, h3⟩ := h
      refine ⟨[], batch, rest, by simp, by simp, ?_, by simp [← h3]⟩
      rw [hs, h1, h2]
    | (none, stx) =>
      have h0 : (settleBatch net path mod (sched batch) st).1 = none := by rw [hs]
      have hset := (settleBatch_none net path mod (sched batch) st h0).1
      have hstx : st = stx := by
        have := hset.symm.trans hs
        exact (Prod.mk.injEq _ _ _ _ ▸ this).2
      subst hstx
      rw [hs] at h
      simp at h
      obtain ⟨h1, h2, h3⟩ := h
      have heq : racePath net path mod sched rest st =
          (Except.ok body, st2, (racePath net path mod sched rest st).2.2) := by
        rw [← h1, ← h2]
      obtain ⟨pre, win, post, hdec, hpre, hwin, hreq⟩ := ih st st2 _ heq
      refine ⟨batch :: pre, win, post, by simp [hdec], ?_, hwin, ?_⟩
      · intro c hc
        rcases List.mem_cons.mp hc with hc | hc
        · subst hc; exact hset
        · exact hpre c hc
      · rw [← h3, hreq]
        simp [List.map_append, List.append_assoc]

/-- A race path call that throws threw the one generic error, left the state
untouched, attempted every batch in full, and no batch settlement resolved. -/
theorem racePath_error (net : Net) (path : String) (mod : ApiModule)
    (sched : List String → List String) (batches : List (List String)) (st : ClientState)
    (e : JsError) (st2 : ClientState) (reqs : List (String × String))
    (h : racePath net path mod sched batches st = (Except.error e, st2, reqs)) :
    e = noServerError ∧ st2 = st ∧
      reqs = batches.flatten.map (fun b => (b, path)) ∧
      ∀ c ∈ batches, settleBatch net path mod (sched c) st = (none, st) := by
  induction batches generalizing st st2 reqs with
  | nil =>
    simp [racePath] at h
    exact ⟨h.1.symm, h.2.1.symm, by simp [h.2.2], by simp⟩
  | cons batch rest ih =>
    unfold racePath at h
    match hs : settleBatch net path mod (sched batch) st with
    | (some b0, stx) => rw [hs] at h; simp at h
    | (none, stx) =>
      have h0 : (settleBatch net path mod (sched batch) st).1 = none := by rw [hs]
      have hset := (settleBatch_none net path mod (sched batch) st h0).1
      have hstx : st = stx := by
        have := hset.symm.trans hs
        exact (Prod.mk.injEq _ _ _ _ ▸ this).2
      subst hstx
      rw [hs] at h
      simp at h
      obtain ⟨h1, h2, h3⟩ := h
      have heq : racePath net path mod sched rest st =
          (Except.error e, st2, (racePath net path mod sched rest st).2.2) := by
        rw [← h1, ← h2]
      obtain ⟨he, hst, hrq, hall⟩ := ih st st2 _ heq
      refine ⟨he, hst, ?_, ?_⟩
      · rw [← h3, hrq]
        simp [List.map_append]
      · intro c hc
        rcases List.mem_cons.mp hc with hc | hc
        · subst hc; exact hset
        · exact hall c hc

/-- A resolved probe race resolved with a member of its completion order whose
probe classified as success. -/
theorem probeRaceWinner_some (net : Net) (path : String) (order : List String) (w : String)
    (h : probeRaceWinner net path order = some w) :
    w ∈ order ∧ (classify (net w path)).isOk = true := by
  induction order with
  | nil => simp [probeRaceWinner] at h
  | cons b rest ih =>
    unfold probeRaceWinner at h
    by_cases hb : (classify (net b path)).isOk
    · rw [if_pos hb] at h
      cases h
      exact ⟨List.mem_cons_self _ _, hb⟩
    · rw [if_neg hb] at h
      obtain ⟨hw, hok⟩ := ih h
      exact ⟨List.mem_cons_of_mem b hw, hok⟩

/-- A rejected probe race had no successful probe in its completion order. -/
theorem probeRaceWinner_none (net : Net) (path : String) (order : List String)
    (h : probeRaceWinner net path order = none) :
    ∀ b ∈ order, (classify (net b path)).isOk = false := by
  induction order with
  | nil => simp
  | cons b rest ih =>
    unfold probeRaceWinner at h
    by_cases hb : (classify (net b path)).isOk
    · rw [if_pos hb] at h; cases h
    · rw [if_neg hb] at h
      intro x hx
      rcases List.mem_cons.mp hx with hx | hx
      · subst hx; simpa using hb
      · exact ih h x hx

/-- An Except value that is not ok is some error. -/
theorem except_error_of_isOk_false {ε α : Type} (x : Except ε α) (h : x.isOk = false) :
    ∃ e, x = Except.error e := by
  cases x with
  | ok a => simp [Except.isOk, Except.toBool] at h
  | error e => exact ⟨e, rfl⟩

/-- A call whose cached endpoint and whole pool all fail: the fast path fails,
only the in-memory entry is nulled, every batch is exhausted, the generic
error is thrown, and the cached endpoint is requested again by the race. -/
theorem fetchWithFailover_fastfail_all (net : Net) (path : String) (mod : ApiModule)
    (sched : List String → List String) (st : ClientState) (E : String)
    (hfail : ∀ b, (classify (net b path)).isOk = false)
    (hcache : st.mem mod = some E) :
    fetchWithFailover net path mod sched st =
      { result := Except.error noServerError,
        state := { st with mem := fun m => if m = mod then none else st.mem m },
        requests := (E, path) :: API_BASES.map (fun b => (b, path)) } := by
  obtain ⟨e, hce⟩ := except_error_of_isOk_false _ (hfail E)
  have hrace := racePath_all_fail net path mod sched (chunksOf BATCH_SIZE API_BASES)
    { st with mem := fun m => if m = mod then none else st.mem m } hfail
  simp only [fetchWithFailover, hcache, hce, hrace, chunks_flatten]

/-- A call with no cached endpoint whose whole pool fails: every batch is
exhausted, the state is untouched, and every pool endpoint was requested
exactly once. -/
theorem fetchWithFailover_nocache_all (net : Net) (path : String) (mod : ApiModule)
    (sched : List String → List String) (st : ClientState)
    (hfail : ∀ b, (classify (net b path)).isOk = false)
    (hcache : st.mem mod = none) :
    fetchWithFailover net path mod sched st =
      { result := Except.error noServerError, state := st,
        requests := API_BASES.map (fun b => (b, path)) } := by
  have hrace := racePath_all_fail net path mod sched (chunksOf BATCH_SIZE API_BASES) st hfail
  simp only [fetchWithFailover, hcache, hrace, chunks_flatten]

/-- C4: when the module cache holds endpoint E and the fast-path request to E
succeeds, exactly one network request is made during the whole call, namely
to E, the call returns that response body, no other endpoint is contacted,
and the client state is unchanged. -/
theorem c4_cache_hit_exclusive (net : Net) (path : String) (mod : ApiModule)
    (sched : List String → List String) (st : ClientState) (E : String) (body : JsonBody)
    (hcache : st.mem mod = some E) (hok : classify (net E path) = Except.ok body) :
    fetchWithFailover net path mod sched st =
      { result := Except.ok body, state := st, requests := [(E, path)] } := by
  simp only [fetchWithFailover, hcache, hok]

/-- Witness for C4 at a concrete network and state. -/
theorem c4_cache_hit_exclusive_witness :
    fetchWithFailover netAllOk ("/lyric?id=1") ApiModule.playlist id stCachedEmptyStore =
      { result := Except.ok { code := none, payload := 42 }, state := stCachedEmptyStore,
        requests := [(("https://ncm.zhenxin.me" : String), ("/lyric?id=1" : String))] } :=
  c4_cache_hit_exclusive netAllOk ("/lyric?id=1") ApiModule.playlist id stCachedEmptyStore
    ("https://ncm.zhenxin.me") { code := none, payload := 42 } rfl rfl

/-- C1 counterexample: with the playlist cache holding the first pool endpoint
and every request failing, that endpoint is attempted twice within the one
call — once on the fast path and once again inside the first race batch —
so the claim that no endpoint is attempted more than once per call, the
fast-path endpoint being excluded from the race batches, is false. -/
theorem c1_counterexample :
    1 < (((fetchWithFailover netAllFail ("/x") ApiModule.playlist id
      stCachedEmptyStore).requests.map Prod.fst).count ("https://ncm.zhenxin.me")) := by
  decide

/-- C1 as amended: within one call whose fast path fails and whose race then
exhausts the pool, the failed cached endpoint is attempted exactly twice
(fast path plus its race batch, since the race runs over a fresh copy of
the full pool without excluding it), while every other endpoint is attempted
at most once. -/
theorem c1_amended_fast_path_endpoint_retried (net : Net) (path : String) (mod : ApiModule)
    (sched : List String → List String) (st : ClientState) (E : String)
    (hfail : ∀ b, (classify (net b path)).isOk = false)
    (hcache : st.mem mod = some E) (hE : E ∈ API_BASES) :
    (((fetchWithFailover net path mod sched st).requests.map Prod.fst).count E = 2) ∧
      ∀ b, b ≠ E →
        ((fetchWithFailover net path mod sched st).requests.map Prod.fst).count b ≤ 1 := by
  have hmap : (fetchWithFailover net path mod sched st).requests =
      (E, path) :: API_BASES.map (fun b => (b, path)) := by
    rw [fetchWithFailover_fastfail_all net path mod sched st E hfail hcache]
  have hfst : (fetchWithFailover net path mod sched st).requests.map Prod.fst
      = E :: API_BASES := by
    rw [hmap]
    rfl
  constructor
  · rw [hfst, List.count_cons_self, List.count_eq_one_of_mem apiBases_nodup hE]
  · intro b hb
    rw [hfst, List.count_cons_of_ne hb]
    exact List.nodup_iff_count_le_one.mp apiBases_nodup b

/-- Witness for the amended C1 at a concrete network and state. -/
theorem c1_amended_witness :
    (((fetchWithFailover netAllFail ("/x") ApiModule.playlist id
      stCachedEmptyStore).requests.map Prod.fst).count ("https://ncm.zhenxin.me")) = 2 :=
  (c1_amended_fast_path_endpoint_retried netAllFail ("/x") ApiModule.playlist id
    stCachedEmptyStore ("https://ncm.zhenxin.me") (fun _ => rfl) rfl (by decide)).1

/-- C2 counterexample: with the whole pool failing, the call rejects with the
generic error of line 467, which records zero individual failures although
nine endpoints were attempted — so the claim that the error contains one
recorded failure per attempted endpoint is false. -/
theorem c2_counterexample :
    (fetchWithFailover netAllFail ("/x") ApiModule.playlist id emptyState).result =
      Except.error noServerError ∧
    (fetchWithFailover netAllFail ("/x") ApiModule.playlist id emptyState).requests.length = 9 ∧
    noServerError.errors.length ≠ 9 := ⟨rfl, rfl, by decide⟩

/-- C2 as amended: when every attempted endpoint fails, the call rejects with
the single generic no-server error, which carries no per-endpoint failures
(promiseAny accumulates the individual errors in a local array but rejects
with a bare Error, and the coordinator throws a fixed message), and the
module cache entry is absent afterwards. -/
theorem c2_amended_generic_error (net : Net) (path : String) (mod : ApiModule)
    (sched : List String → List String) (st : ClientState)
    (hfail : ∀ b, (classify (net b path)).isOk = false) :
    (fetchWithFailover net path mod sched st).result = Except.error noServerError ∧
    noServerError.errors = [] ∧
    (fetchWithFailover net path mod sched st).state.mem mod = none := by
  match hm : st.mem mod with
  | some E =>
    rw [fetchWithFailover_fastfail_all net path mod sched st E hfail hm]
    exact ⟨rfl, rfl, by simp⟩
  | none =>
    rw [fetchWithFailover_nocache_all net path mod sched st hfail hm]
    exact ⟨rfl, rfl, hm⟩

/-- Witness for the amended C2 at a concrete network and state. -/
theorem c2_amended_witness :
    (fetchWithFailover netAllFail ("/y") ApiModule.search id emptyState).result =
      Except.error noServerError ∧
    noServerError.errors = [] ∧
    (fetchWithFailover netAllFail ("/y") ApiModule.search id emptyState).state.mem
      ApiModule.search = none :=
  c2_amended_generic_error netAllFail ("/y") ApiModule.search id emptyState (fun _ => rfl)

/-- C3 counterexample: an HTTP 200 body whose top-level code field is present
and equal to 0 — a value different from the 200 success sentinel — is
treated as a success, both by the shared classification and by a fast-path
call, because the truthiness guard on data.code ignores 0; so the claim
that every present non-200 value, including 0, fails is false. -/
theorem c3_counterexample :
    classify (FetchResult.resp 200 { code := some 0, payload := 7 }) =
      Except.ok { code := some 0, payload := 7 } ∧
    (fetchWithFailover netCodeZero ("/x") ApiModule.playlist id stCachedEmptyStore).result =
      Except.ok { code := some 0, payload := 7 } := ⟨rfl, rfl⟩

/-- C3 as amended: on the shared classification used by the fast path, the
race path and the calibration probe alike, a present top-level code field
fails the request exactly when it is truthy (nonzero) and different from
200; a present 0 is treated as success, exactly like an absent field. -/
theorem c3_amended_truthy_code_check (status : Nat) (c : Int) (p : Nat)
    (hok : resOk status = true) :
    (c ≠ 0 → c ≠ 200 →
      classify (FetchResult.resp status { code := some c, payload := p }) =
        Except.error (AttemptError.apiCode c)) ∧
    classify (FetchResult.resp status { code := some 0, payload := p }) =
      Except.ok { code := some 0, payload := p } ∧
    classify (FetchResult.resp status { code := none, payload := p }) =
      Except.ok { code := none, payload := p } := by
  refine ⟨fun h0 h200 => ?_, ?_, ?_⟩
  · simp [classify, hok, jsTruthy, h0, h200]
  · simp [classify, hok, jsTruthy]
  · simp [classify, hok]

/-- Witness for the amended C3 at a concrete status and code. -/
theorem c3_amended_witness :
    classify (FetchResult.resp 200 { code := some 500, payload := 1 }) =
      Except.error (AttemptError.apiCode 500) :=
  (c3_amended_truthy_code_check 200 500 1 rfl).1 (by decide) (by decide)

/-- When the set operation of the store does not throw for the module key,
saving persists the value. -/
theorem saveModuleBestBase_store_self (st : ClientState) (mod : ApiModule) (base : String)
    (h : st.store.setThrows (moduleKey mod) = false) :
    (saveModuleBestBase st mod base).store.items (moduleKey mod) = some base := by
  unfold saveModuleBestBase storeSet
  simp [h]

/-- A resolved race over the standard batches, entered with no cached entry,
leaves the module entry set to a pool endpoint whose own request classified
as success with exactly the returned body. -/
theorem racePath_winner (net : Net) (path : String) (mod : ApiModule)
    (sched : List String → List String) (st : ClientState) (body : JsonBody)
    (st2 : ClientState) (reqs : List (String × String))
    (hsched : ∀ c, (sched c).Perm c)
    (hmem : st.mem mod = none)
    (h : racePath net path mod sched (chunksOf BATCH_SIZE API_BASES) st =
      (Except.ok body, st2, reqs)) :
    ∃ w, st2.mem mod = some w ∧ w ∈ API_BASES ∧ classify (net w path) = Except.ok body := by
  obtain ⟨pre, win, post, hdec, hpre, hwin, hreq⟩ :=
    racePath_ok net path mod sched (chunksOf BATCH_SIZE API_BASES) st body st2 reqs h
  obtain ⟨w, hw, hcw, hmw⟩ :=
    settleBatch_some net path mod (sched win) st body st2 hmem hwin
  have hwwin : w ∈ win := (hsched win).mem_iff.mp hw
  have hwinmem : win ∈ chunksOf BATCH_SIZE API_BASES := by
    rw [hdec]
    exact List.mem_append_right _ (List.mem_cons_self _ _)
  have hwpool : w ∈ API_BASES := by
    rw [← chunks_flatten]
    exact List.mem_flatten.mpr ⟨win, hwinmem, hwwin⟩
  exact ⟨w, hmw, hwpool, hcw⟩

/-- C5: after a call whose race path resolves for a module (either no entry
was cached, or the cached entry failed its fast-path attempt), the module
entry holds a pool endpoint whose own request in that race classified as
success with the returned body — never the endpoint of a losing operation. -/
theorem c5_winner_propagation (net : Net) (path : String) (mod : ApiModule)
    (sched : List String → List String) (st : ClientState) (body : JsonBody)
    (hsched : ∀ c, (sched c).Perm c)
    (hnocache : st.mem mod = none ∨
      ∃ E, st.mem mod = some E ∧ (classify (net E path)).isOk = false)
    (hok : (fetchWithFailover net path mod sched st).result = Except.ok body) :
    ∃ w, (fetchWithFailover net path mod sched st).state.mem mod = some w ∧
      w ∈ API_BASES ∧ classify (net w path) = Except.ok body := by
  rcases hnocache with hm | ⟨E, hm, hferr⟩
  · simp only [fetchWithFailover, hm] at hok ⊢
    have heq : racePath net path mod sched (chunksOf BATCH_SIZE API_BASES) st =
        (Except.ok body,
          (racePath net path mod sched (chunksOf BATCH_SIZE API_BASES) st).2.1,
          (racePath net path mod sched (chunksOf BATCH_SIZE API_BASES) st).2.2) := by
      rw [← hok]
    exact racePath_winner net path mod sched st body _ _ (fun c => hsched c) hm heq
  · obtain ⟨e, hce⟩ := except_error_of_isOk_false _ hferr
    simp only [fetchWithFailover, hm, hce] at hok ⊢
    have hmem2 : ({ st with mem := fun m => if m = mod then none else st.mem m }
        : ClientState).mem mod = none := by simp
    have heq : racePath net path mod sched (chunksOf BATCH_SIZE API_BASES)
        { st with mem := fun m => if m = mod then none else st.mem m } =
        (Except.ok body,
          (racePath net path mod sched (chunksOf BATCH_SIZE API_BASES)
            { st with mem := fun m => if m = mod then none else st.mem m }).2.1,
          (racePath net path mod sched (chunksOf BATCH_SIZE API_BASES)
            { st with mem := fun m => if m = mod then none else st.mem m }).2.2) := by
      rw [← hok]
    exact racePath_winner net path mod sched _ body _ _ (fun c => hsched c) hmem2 heq

/-- Witness for C5 at a concrete network where only the first pool endpoint
answers. -/
theorem c5_winner_propagation_witness :
    ∃ w, (fetchWithFailover netFirstOk ("/x") ApiModule.playlist id emptyState).state.mem
        ApiModule.playlist = some w ∧
      w ∈ API_BASES ∧
      classify (netFirstOk w ("/x")) = Except.ok { code := none, payload := 5 } :=
  c5_winner_propagation netFirstOk ("/x") ApiModule.playlist id emptyState
    { code := none, payload := 5 } (fun c => List.Perm.refl c) (Or.inl rfl) rfl

/-- C6 counterexample: the playlist cache holds the first pool endpoint both
in memory and under its persisted key, the store never throws, and every
request fails; after the call the in-memory entry is gone but the persisted
key still holds the failed endpoint — so the claim that the persisted key
is deleted when the fast path fails is false. -/
theorem c6_counterexample :
    (fetchWithFailover netAllFail ("/x") ApiModule.playlist id stCachedPersisted).state.mem
        ApiModule.playlist = none ∧
    stCachedPersisted.store.removeThrows ("vinyl_api_playlist") = false ∧
    (fetchWithFailover netAllFail ("/x") ApiModule.playlist id
        stCachedPersisted).state.store.items ("vinyl_api_playlist") =
      some ("https://ncm.zhenxin.me") := ⟨rfl, rfl, rfl⟩

/-- C6 as amended: when the fast-path request against the cached endpoint
fails, only the in-memory entry is nulled before the race path runs; the
durable store is left completely untouched (the fast-path failure handler
assigns null in memory and never calls resetModuleApiNode), so when the old
endpoint was persisted it stays persisted, and a fresh process instance
reloading from that store would get the failed endpoint back. -/
theorem c6_amended_memory_only_invalidation (net : Net) (path : String) (mod : ApiModule)
    (sched : List String → List String) (st : ClientState) (E : String)
    (hfail : ∀ b, (classify (net b path)).isOk = false)
    (hcache : st.mem mod = some E) :
    (fetchWithFailover net path mod sched st).state.mem mod = none ∧
    (fetchWithFailover net path mod sched st).state.store = st.store ∧
    (∀ v, st.store.items (moduleKey mod) = some v → v ∈ API_BASES →
      st.store.getThrows (moduleKey mod) = false →
      loadModuleBestBases (fetchWithFailover net path mod sched st).state.store mod =
        some v) := by
  rw [fetchWithFailover_fastfail_all net path mod sched st E hfail hcache]
  refine ⟨by simp, rfl, ?_⟩
  intro v hv hvpool hget
  unfold loadModuleBestBases storeGet
  simp only [hget, Bool.false_eq_true, if_false, hv]
  rw [if_pos]
  exact List.elem_iff.mpr hvpool

/-- Witness for the amended C6 at a concrete network and state. -/
theorem c6_amended_witness :
    (fetchWithFailover netAllFail ("/x") ApiModule.playlist id stCachedPersisted).state.mem
        ApiModule.playlist = none ∧
    (fetchWithFailover netAllFail ("/x") ApiModule.playlist id
        stCachedPersisted).state.store = stCachedPersisted.store ∧
    loadModuleBestBases (fetchWithFailover netAllFail ("/x") ApiModule.playlist id
        stCachedPersisted).state.store ApiModule.playlist =
      some ("https://ncm.zhenxin.me") := by
  have h := c6_amended_memory_only_invalidation netAllFail ("/x") ApiModule.playlist id
    stCachedPersisted ("https://ncm.zhenxin.me") (fun _ => rfl) rfl
  exact ⟨h.1, h.2.1, h.2.2 ("https://ncm.zhenxin.me") rfl (by decide) rfl⟩

/-- C7: the race batches partition the pool — their concatenation is exactly
API_BASES, the pool has no duplicates, every pool endpoint lies in exactly
one batch, every batch is nonempty of size at most BATCH_SIZE — and for any
race-path call the batches are attempted strictly in order: when the call
resolves, every batch before the winning one settled to a rejection, the
winning batch produced the returned body, and the request log stops at the
winning batch, so later batches are never attempted; when the call throws,
every pool endpoint was requested exactly following the batch order. -/
theorem c7_batch_partition_and_order :
    ((chunksOf BATCH_SIZE API_BASES).flatten = API_BASES ∧
      API_BASES.Nodup ∧
      (∀ b ∈ API_BASES,
        ((chunksOf BATCH_SIZE API_BASES).countP fun c => c.contains b) = 1) ∧
      (∀ c ∈ chunksOf BATCH_SIZE API_BASES, c ≠ [] ∧ c.length ≤ BATCH_SIZE)) ∧
    ∀ net path mod sched st, st.mem mod = none →
      (∀ body, (fetchWithFailover net path mod sched st).result = Except.ok body →
        ∃ pre win post, chunksOf BATCH_SIZE API_BASES = pre ++ win :: post ∧
          (∀ c ∈ pre, settleBatch net path mod (sched c) st = (none, st)) ∧
          (settleBatch net path mod (sched win) st).1 = some body ∧
          (fetchWithFailover net path mod sched st).requests =
            (pre.flatten ++ win).map fun b => (b, path)) ∧
      (∀ e, (fetchWithFailover net path mod sched st).result = Except.error e →
        (fetchWithFailover net path mod sched st).requests =
          API_BASES.map fun b => (b, path)) := by
  refine ⟨⟨rfl, apiBases_nodup, by decide, by decide⟩, ?_⟩
  intro net path mod sched st hmem
  constructor
  · intro body hok
    simp only [fetchWithFailover, hmem] at hok ⊢
    have heq : racePath net path mod sched (chunksOf BATCH_SIZE API_BASES) st =
        (Except.ok body,
          (racePath net path mod sched (chunksOf BATCH_SIZE API_BASES) st).2.1,
          (racePath net path mod sched (chunksOf BATCH_SIZE API_BASES) st).2.2) := by
      rw [← hok]
    obtain ⟨pre, win, post, hdec, hpre, hwin, hreq⟩ :=
      racePath_ok net path mod sched (chunksOf BATCH_SIZE API_BASES) st body _ _ heq
    exact ⟨pre, win, post, hdec, hpre, by rw [hwin], hreq⟩
  · intro e herr
    simp only [fetchWithFailover, hmem] at herr ⊢
    have heq : racePath net path mod sched (chunksOf BATCH_SIZE API_BASES) st =
        (Except.error e,
          (racePath net path mod sched (chunksOf BATCH_SIZE API_BASES) st).2.1,
          (racePath net path mod sched (chunksOf BATCH_SIZE API_BASES) st).2.2) := by
      rw [← herr]
    obtain ⟨he, hst, hrq, hall⟩ :=
      racePath_error net path mod sched (chunksOf BATCH_SIZE API_BASES) st e _ _ heq
    rw [hrq, chunks_flatten]

/-- Witness for C7 at a concrete all-failing network. -/
theorem c7_batch_partition_witness :
    (fetchWithFailover netAllFail ("/x") ApiModule.playlist id emptyState).requests =
      API_BASES.map fun b => (b, ("/x" : String)) :=
  ((c7_batch_partition_and_order.2 netAllFail ("/x") ApiModule.playlist id emptyState
    rfl).2 noServerError rfl)

/-- C8: refreshModuleApiNode always probes the full pool in one single batch
on the module probe path regardless of any existing healthy cache entry (so
refresh never short-circuits via the cache); on success the returned winner
is a pool endpoint whose probe classified as success, it is written into the
module entry and (when the store set does not throw) persisted; on total
failure every pool probe failed, null is returned, the module entry is
absent, and (when the store remove does not throw) the persisted key was
deleted by the unconditional upfront invalidation. -/
theorem c8_refresh_full_race (net : Net) (sched : List String → List String)
    (mod : ApiModule) (st : ClientState)
    (hsched : (sched API_BASES).Perm API_BASES) :
    (refreshModuleApiNode net sched mod st).2.2 =
      API_BASES.map (fun b => (b, MODULE_TEST_PATHS mod)) ∧
    (∀ w, (refreshModuleApiNode net sched mod st).1 = some w →
      w ∈ API_BASES ∧ (classify (net w (MODULE_TEST_PATHS mod))).isOk = true ∧
      (refreshModuleApiNode net sched mod st).2.1.mem mod = some w ∧
      (st.store.setThrows (moduleKey mod) = false →
        (refreshModuleApiNode net sched mod st).2.1.store.items (moduleKey mod) = some w)) ∧
    ((refreshModuleApiNode net sched mod st).1 = none →
      (refreshModuleApiNode net sched mod st).2.1.mem mod = none ∧
      (∀ b ∈ API_BASES, (classify (net b (MODULE_TEST_PATHS mod))).isOk = false) ∧
      (st.store.removeThrows (moduleKey mod) = false →
        (refreshModuleApiNode net sched mod st).2.1.store.items (moduleKey mod) = none)) := by
  match hpw : probeRaceWinner net (MODULE_TEST_PATHS mod) (sched API_BASES) with
  | some w0 =>
    simp only [refreshModuleApiNode, hpw]
    refine ⟨trivial, ?_, ?_⟩
    · intro w hw
      have hw0 : w0 = w := by injection hw
      subst hw0
      obtain ⟨hmemn, hokn⟩ :=
        probeRaceWinner_some net (MODULE_TEST_PATHS mod) (sched API_BASES) w0 hpw
      refine ⟨hsched.mem_iff.mp hmemn, hokn,
        saveModuleBestBase_mem_self (resetModuleApiNode st mod) mod w0, ?_⟩
      intro hset
      apply saveModuleBestBase_store_self
      rw [congrFun (resetModuleApiNode_store_flags st mod).1 (moduleKey mod)]
      exact hset
    · intro hn
      cases hn
  | none =>
    simp only [refreshModuleApiNode, hpw]
    refine ⟨trivial, ?_, ?_⟩
    · intro w hw
      cases hw
    · intro _
      refine ⟨resetModuleApiNode_mem_self st mod, ?_, ?_⟩
      · intro b hb
        exact probeRaceWinner_none net (MODULE_TEST_PATHS mod) (sched API_BASES) hpw b
          (hsched.mem_iff.mpr hb)
      · intro hrem
        exact resetModuleApiNode_store_self st mod hrem

/-- Witness for C8 at a concrete network where every endpoint answers. -/
theorem c8_refresh_full_race_witness :
    (refreshModuleApiNode netAllOk id ApiModule.search emptyState).2.2 =
      API_BASES.map (fun b => (b, MODULE_TEST_PATHS ApiModule.search)) ∧
    (refreshModuleApiNode netAllOk id ApiModule.search emptyState).1 =
      some ("https://ncm.zhenxin.me") ∧
    (refreshModuleApiNode netAllOk id ApiModule.search emptyState).2.1.mem ApiModule.search =
      some ("https://ncm.zhenxin.me") := by
  have h := c8_refresh_full_race netAllOk id ApiModule.search emptyState (List.Perm.refl _)
  exact ⟨h.1, rfl, (h.2.1 ("https://ncm.zhenxin.me") rfl).2.2.1⟩

/-- C9: setting or invalidating the cache entry of module A changes neither
the in-memory entry of a distinct module B nor the stored value under the
persisted key of B (the persisted keys of distinct modules are distinct). -/
theorem c9_category_isolation (st : ClientState) (A B : ApiModule) (base : String)
    (hAB : A ≠ B) :
    (saveModuleBestBase st A base).mem B = st.mem B ∧
    (saveModuleBestBase st A base).store.items (moduleKey B) =
      st.store.items (moduleKey B) ∧
    (resetModuleApiNode st A).mem B = st.mem B ∧
    (resetModuleApiNode st A).store.items (moduleKey B) =
      st.store.items (moduleKey B) := by
  have hkey : moduleKey B ≠ moduleKey A := moduleKey_injective B A (Ne.symm hAB)
  exact ⟨saveModuleBestBase_mem_frame st A base B (Ne.symm hAB),
    saveModuleBestBase_store_frame st A base (moduleKey B) hkey,
    resetModuleApiNode_mem_frame st A B (Ne.symm hAB),
    resetModuleApiNode_store_frame st A (moduleKey B) hkey⟩

/-- Witness for C9 at concrete distinct modules and a concrete state. -/
theorem c9_category_isolation_witness :
    (saveModuleBestBase stCachedPersisted ApiModule.playlist ("https://zm.i9mr.com")).mem
        ApiModule.search = stCachedPersisted.mem ApiModule.search ∧
    (saveModuleBestBase stCachedPersisted ApiModule.playlist
        ("https://zm.i9mr.com")).store.items (moduleKey ApiModule.search) =
      stCachedPersisted.store.items (moduleKey ApiModule.search) ∧
    (resetModuleApiNode stCachedPersisted ApiModule.playlist).mem ApiModule.search =
      stCachedPersisted.mem ApiModule.search ∧
    (resetModuleApiNode stCachedPersisted ApiModule.playlist).store.items
        (moduleKey ApiModule.search) =
      stCachedPersisted.store.items (moduleKey ApiModule.search) :=
  c9_category_isolation stCachedPersisted ApiModule.playlist ApiModule.search
    ("https://zm.i9mr.com") (by decide)

/-- C10: every cache operation swallows storage failures — a throwing read
makes loadModuleBestBases yield an absent entry for that module; a throwing
setItem leaves saveModuleBestBase with its in-memory update done and the
store untouched; a throwing removeItem leaves resetModuleApiNode with its
in-memory entry nulled and the store untouched; no exception ever reaches
the caller (the operations are total functions of the state). -/
theorem c10_storage_failures_swallowed (s : Storage) (st : ClientState)
    (mod : ApiModule) (base : String) :
    (s.getThrows (moduleKey mod) = true → loadModuleBestBases s mod = none) ∧
    (saveModuleBestBase st mod base).mem mod = some base ∧
    (st.store.setThrows (moduleKey mod) = true →
      (saveModuleBestBase st mod base).store = st.store) ∧
    (resetModuleApiNode st mod).mem mod = none ∧
    (st.store.removeThrows (moduleKey mod) = true →
      (resetModuleApiNode st mod).store = st.store) := by
  refine ⟨?_, saveModuleBestBase_mem_self st mod base, ?_,
    resetModuleApiNode_mem_self st mod, ?_⟩
  · intro h
    unfold loadModuleBestBases storeGet
    simp [h]
  · intro h
    unfold saveModuleBestBase storeSet
    simp [h]
  · intro h
    unfold resetModuleApiNode storeRemove
    simp [h]

/-- Witness for C10 over a store where every operation throws. -/
theorem c10_storage_failures_swallowed_witness :
    loadModuleBestBases throwingStorage ApiModule.lyrics = none ∧
    (saveModuleBestBase throwingState ApiModule.lyrics ("https://api.lo-li.cw")).mem
      ApiModule.lyrics = some ("https://api.lo-li.cw") ∧
    (saveModuleBestBase throwingState ApiModule.lyrics ("https://api.lo-li.cw")).store =
      throwingState.store ∧
    (resetModuleApiNode throwingState ApiModule.lyrics).mem ApiModule.lyrics = none ∧
    (resetModuleApiNode throwingState ApiModule.lyrics).store = throwingState.store := by
  have h := c10_storage_failures_swallowed throwingStorage throwingState ApiModule.lyrics
    ("https://api.lo-li.cw")
  exact ⟨h.1 rfl, h.2.1, h.2.2.1 rfl, h.2.2.2.1, h.2.2.2.2 rfl⟩

end MusicApi
